import Mathlib

/-!
Shallow embedding of the PR review report aggregation logic of
`scripts/process_pr_reviews.js`: the input data model, the Jira ticket
extraction, the review-state resolver, the PR status classifier, the
requested-reviewer extraction, the age color coding, and the
per-reviewer aggregation loop, together with theorems settling the
specification claims about them.

JS review state values and map entries are modelled as `String`s;
JS `undefined`/missing values as `Option.none`.  JS string truthiness
(`!s` is true for the empty string and for `undefined`) is modelled by
`isFalsyOpt`.
-/

/-- One submitted review (`pr.reviews.nodes[i]` in the source): the
submitting reviewer's login and display name when present, and the raw
review state string (`review.state`). -/
structure Review where
  authorLogin : Option String
  authorName : Option String
  state : String
deriving DecidableEq

/-- One review request (`pr.reviewRequests.nodes[i].requestedReviewer`):
`reviewerLogin` is `none` when the request has no requested reviewer or
the requested reviewer (e.g. a team) has no login. -/
structure ReviewRequest where
  reviewerLogin : Option String
  reviewerName : Option String
deriving DecidableEq

/-- One pull request record, the input shape consumed by `processData`.
An absent `reviewRequests` or `reviews` collection is `none` (the
source's optional chaining plus `|| []` turns these into empty lists). -/
structure PullRequest where
  number : Int
  title : Option String
  authorLogin : Option String
  authorName : Option String
  createdAt : Int
  isDraft : Bool
  reviewRequests : Option (List ReviewRequest)
  reviews : Option (List Review)
deriving DecidableEq

/-- JS falsiness of an optional string value: `undefined` (here `none`)
and the empty string are falsy; every other string is truthy. -/
def isFalsyOpt : Option String → Bool
  | none => true
  | some s => decide (s = "")

/-- Property read on a JS object used as a string-keyed map:
the value at key `r`, or `none` when the key is absent. -/
def lookupA : List (String × String) → String → Option String
  | [], _ => none
  | p :: rest, r => if p.1 = r then some p.2 else lookupA rest r

/-- Property write on a JS object used as a string-keyed map: replace
the binding of `k` in place, or append a new binding (JS objects keep
insertion order for string keys). -/
def updateAssoc : List (String × String) → String → String → List (String × String)
  | [], k, v => [(k, v)]
  | p :: rest, k, v => if p.1 = k then (k, v) :: rest else p :: updateAssoc rest k v

/-- `[...new Set(list)]`: deduplicate keeping the first occurrence of
each element, preserving order (JS `Set` iterates in insertion order). -/
def setDedup (l : List String) : List String :=
  l.foldl (fun acc x => if x ∈ acc then acc else acc ++ [x]) []

/-- Scanner for the regex `/OCMUI-\d+/g` of `extractJiraIds` (source
lines 4-9): all non-overlapping, leftmost, greedy matches of the
pattern `OCMUI-` followed by one or more digits.  `fuel` bounds the
recursion; every step consumes at least one character, so `fuel =
initial length` computes the full scan. -/
def jiraScanF : Nat → List Char → List String
  | 0, _ => []
  | _ + 1, [] => []
  | fuel + 1, 'O' :: 'C' :: 'M' :: 'U' :: 'I' :: '-' :: tail =>
    let ds := tail.takeWhile (fun ch => ch.isDigit)
    if ds.isEmpty then
      jiraScanF fuel ('C' :: 'M' :: 'U' :: 'I' :: '-' :: tail)
    else
      String.mk ('O' :: 'C' :: 'M' :: 'U' :: 'I' :: '-' :: ds) ::
        jiraScanF fuel (tail.drop ds.length)
  | fuel + 1, _ :: cs => jiraScanF fuel cs

/-- `extractJiraIds` (source lines 4-9): `[]` for a falsy title,
otherwise the regex matches of `/OCMUI-\d+/g` deduplicated by
`[...new Set(matches)]`. -/
def extractJiraIds (title : Option String) : List String :=
  match title with
  | none => []
  | some s => if s = "" then [] else setDedup (jiraScanF s.toList.length s.toList)

/-- The `# Days Open` color coding (source lines 97-100): red above 6
days, orange above 4, yellow above 2, otherwise the default white. -/
def colorOfDaysOpen (d : Int) : String :=
  if d > 6 then "red"
  else if d > 4 then "orange"
  else if d > 2 then "yellow"
  else "#d4d4d4"

/-- The spec's display-severity tier names for the source's colors:
red = severe, orange = high, yellow = medium, default = normal. -/
def tierOfColor (c : String) : String :=
  if c = "red" then "severe"
  else if c = "orange" then "high"
  else if c = "yellow" then "medium"
  else "normal"

/-- Age display-severity tier of an age in days: the tier name of the
source's color for that age. -/
def ageSeverityTier (d : Int) : String :=
  tierOfColor (colorOfDaysOpen d)

/-- `# Days Open` (source line 94): floor of the millisecond difference
divided by one day in milliseconds. -/
def daysOpenOf (now : Int) (pr : PullRequest) : Int :=
  Int.fdiv (now - pr.createdAt) 86400000

/-- `pr.author?.login || 'Unknown'` (source line 75): the author login,
with a missing or empty login replaced by the sentinel `"Unknown"`. -/
def prAuthorOf (pr : PullRequest) : String :=
  match pr.authorLogin with
  | none => "Unknown"
  | some s => if s = "" then "Unknown" else s

/-- Requested-reviewer extraction (source lines 103-116): map each
request to its reviewer's login, then `filter(Boolean)` drops requests
without a reviewer, without a login, or with an empty login.  An absent
`reviewRequests` collection degrades to the empty list. -/
def requestedReviewers (reqs : Option (List ReviewRequest)) : List String :=
  match reqs with
  | none => []
  | some nodes =>
    ((nodes.map (fun req => req.reviewerLogin)).filterMap id).filter
      (fun s => decide (s ≠ ""))

/-- The update condition of the review-state resolver (source lines
135-142): overwrite when the current state is falsy, the new state is
CHANGES_REQUESTED, the new state is APPROVED and the current one is not
CHANGES_REQUESTED, or the new state is COMMENTED and the current one is
neither CHANGES_REQUESTED nor APPROVED. -/
abbrev updCond (cur : Option String) (n : String) : Prop :=
  isFalsyOpt cur = true ∨ n = "CHANGES_REQUESTED" ∨
    (¬ cur = some "CHANGES_REQUESTED" ∧ n = "APPROVED") ∨
    (¬ cur = some "CHANGES_REQUESTED" ∧ ¬ cur = some "APPROVED" ∧ n = "COMMENTED")

/-- One resolver update on a single reviewer's current state. -/
def updState (cur : Option String) (n : String) : Option String :=
  if updCond cur n then some n else cur

/-- One step of the resolver loop (source lines 120-145) on the
`reviewerStatus` map: skip reviews without a login, with an empty
login, or authored by the PR author; otherwise conditionally overwrite
that reviewer's state. -/
def resolveStep (author : Option String) (m : List (String × String)) (rv : Review) :
    List (String × String) :=
  match rv.authorLogin with
  | none => m
  | some login =>
    if login = "" then m
    else if author = some login then m
    else if updCond (lookupA m login) rv.state then updateAssoc m login rv.state else m

/-- The `reviewerStatus` map of one PR: the resolver folded over the
review list (an absent `reviews` collection degrades to no reviews). -/
def resolveAll (author : Option String) (reviews : Option (List Review)) :
    List (String × String) :=
  match reviews with
  | none => []
  | some rs => rs.foldl (resolveStep author) []

/-- The `reviewerStatus` map computed for a PR record. -/
def resolvedOf (pr : PullRequest) : List (String × String) :=
  resolveAll pr.authorLogin pr.reviews

/-- The subsequence of states that reviewer `r` submitted on a PR, in
submission order, excluding self-reviews and entries the resolver
skips. -/
def submittedStates (author : Option String) (r : String) (rs : List Review) :
    List String :=
  rs.filterMap (fun rv =>
    match rv.authorLogin with
    | none => none
    | some login =>
      if login = "" then none
      else if author = some login then none
      else if login = r then some rv.state else none)

/-- The resolver's fold on a single reviewer's own submission
sequence. -/
def resolveFold (cur : Option String) (states : List String) : Option String :=
  states.foldl updState cur

/-- The claimed precedence of review states (claim C2's strict total
order CHANGES_REQUESTED > APPROVED > COMMENTED > DISMISSED >
PENDING).  Stated from the claim's words, for comparison with the
source's resolver. -/
def prec5 (s : String) : Nat :=
  if s = "CHANGES_REQUESTED" then 5
  else if s = "APPROVED" then 4
  else if s = "COMMENTED" then 3
  else if s = "DISMISSED" then 2
  else if s = "PENDING" then 1
  else 0

/-- The maximum of a list of states under the claimed precedence order
`prec5`.  Stated from claim C2's words, for comparison with the
source's resolver. -/
def specResolvedMax (states : List String) : Option String :=
  states.foldl
    (fun acc s =>
      match acc with
      | none => some s
      | some c => if prec5 c < prec5 s then some s else some c)
    none

/-- Number of approvals of a PR (source lines 148-149): the number of
entries of the `reviewerStatus` map whose state is APPROVED. -/
def approvalCount (m : List (String × String)) : Nat :=
  (m.filter (fun p => decide (p.2 = "APPROVED"))).length

/-- Number of approvals required to merge a PR (source line 69). -/
def REQUIRED_APPROVALS : Nat := 3

/-- PR status classification (source lines 152-175): ready_to_merge at
or above the approval threshold, otherwise changes_requested when some
resolved state is CHANGES_REQUESTED, otherwise needs_review. -/
def prStatus (m : List (String × String)) : String :=
  if REQUIRED_APPROVALS ≤ approvalCount m then "ready_to_merge"
  else if m.any (fun p => decide (p.2 = "CHANGES_REQUESTED")) then "changes_requested"
  else "needs_review"

/-- Readable label of a review state (source lines 57-63 and 189):
the mapped label, falling back to the lowercased raw state. -/
def reviewStateLabel (s : String) : String :=
  if s = "APPROVED" then "approved"
  else if s = "CHANGES_REQUESTED" then "requested changes"
  else if s = "COMMENTED" then "commented"
  else if s = "DISMISSED" then "dismissed"
  else if s = "PENDING" then "pending"
  else s.toLower

/-- The reviewer-status annotation list (source lines 178-190):
requested reviewers with a falsy resolved state first, then every
resolved entry with its state label. -/
def reviewersWithStatus (requested : List String) (m : List (String × String)) :
    List String :=
  (requested.filter (fun r => isFalsyOpt (lookupA m r))).map
      (fun r => r ++ " (requested)") ++
    m.map (fun p => p.1 ++ " (" ++ reviewStateLabel p.2 ++ ")")

/-- The `jiraLinks` string of a PR (source lines 82-84): each extracted
ticket id rendered as an anchor, joined with commas. -/
def jiraLinksOf (title : Option String) : String :=
  String.intercalate ", "
    ((extractJiraIds title).map
      (fun id =>
        "<a href=\"https://issues.redhat.com/browse/" ++ id ++
          "\" target=\"_blank\">" ++ id ++ "</a>"))

/-- `allReviewers` of one PR (source line 213): the deduplicated union
of the requested reviewers and the reviewers with a resolved state. -/
def allReviewers (requested : List String) (m : List (String × String)) :
    List String :=
  setDedup (requested ++ m.map Prod.fst)

/-- The pending decision for one reviewer on one PR (source lines
224-233): requested with a falsy resolved state, or a truthy resolved
state among COMMENTED, CHANGES_REQUESTED, PENDING. -/
def isPendingOf (requested : List String) (m : List (String × String)) (r : String) :
    Bool :=
  match lookupA m r with
  | none => decide (r ∈ requested)
  | some s =>
    if s = "" then decide (r ∈ requested)
    else decide (s = "COMMENTED" ∨ s = "CHANGES_REQUESTED" ∨ s = "PENDING")

/-- Claim C3's wording of the pending decision: requested with no
resolved state, or a resolved state among COMMENTED,
CHANGES_REQUESTED, PENDING.  Stated from the claim's words, for
comparison with the source's pending decision. -/
def isPendingSpec (requested : List String) (m : List (String × String)) (r : String) :
    Bool :=
  match lookupA m r with
  | none => decide (r ∈ requested)
  | some s => decide (s = "COMMENTED" ∨ s = "CHANGES_REQUESTED" ∨ s = "PENDING")

/-- One entry of a reviewer's `prDetails` (source lines 241-254). -/
structure PrDetail where
  number : Int
  title : Option String
  author : String
  daysOpen : Int
  daysOpenColor : String
  reviewersLabel : String
  approvals : Nat
  status : String
  isPending : Bool
  sortOrder : Nat
  isDraft : Bool
  jiraLinks : String
deriving DecidableEq

/-- One reviewer's aggregate (source lines 215-217): the pending count
and the PR detail list. -/
structure ReviewerAgg where
  pending : Nat
  prDetails : List PrDetail
deriving DecidableEq

/-- The fresh aggregate a reviewer starts with. -/
def emptyAgg : ReviewerAgg := { pending := 0, prDetails := [] }

/-- The detail record pushed for one reviewer and one PR (source lines
241-254). -/
def mkPrDetail (requested : List String) (m : List (String × String))
    (pr : PullRequest) (pa : String) (d : Int) (st : String) (ap : Nat) (p : Bool) :
    PrDetail :=
  { number := pr.number
    title := pr.title
    author := pa
    daysOpen := d
    daysOpenColor := colorOfDaysOpen d
    reviewersLabel := String.intercalate ", " (reviewersWithStatus requested m)
    approvals := ap
    status := st
    isPending := p
    sortOrder := if p then 0 else 1
    isDraft := pr.isDraft
    jiraLinks := jiraLinksOf pr.title }

/-- The per-reviewer body of the `allReviewers.forEach` loop (source
lines 214-256): increment the pending count when the reviewer is
pending on this PR, then push the detail record unless an entry with
this PR number already exists. -/
def stepReviewer (requested : List String) (m : List (String × String))
    (pr : PullRequest) (pa : String) (d : Int) (st : String) (ap : Nat)
    (agg : ReviewerAgg) (r : String) : ReviewerAgg :=
  if agg.prDetails.any (fun dt => decide (dt.number = pr.number)) then
    { pending := if isPendingOf requested m r then agg.pending + 1 else agg.pending
      prDetails := agg.prDetails }
  else
    { pending := if isPendingOf requested m r then agg.pending + 1 else agg.pending
      prDetails := agg.prDetails ++ [mkPrDetail requested m pr pa d st ap (isPendingOf requested m r)] }

/-- Pointwise update of the global reviewers map. -/
def updFun (f : String → ReviewerAgg) (k : String) (v : ReviewerAgg) :
    String → ReviewerAgg :=
  fun x => if x = k then v else f x

/-- `stepReviewer` with the per-PR arguments computed from the PR
record. -/
def prReviewStep (now : Int) (pr : PullRequest) (agg : ReviewerAgg) (r : String) :
    ReviewerAgg :=
  stepReviewer (requestedReviewers pr.reviewRequests) (resolvedOf pr) pr
    (prAuthorOf pr) (daysOpenOf now pr) (prStatus (resolvedOf pr))
    (approvalCount (resolvedOf pr)) agg r

/-- Processing of one PR into the global reviewers map (source lines
213-256): run `stepReviewer` for every login in `allReviewers`. -/
def processPR (now : Int) (agg : String → ReviewerAgg) (pr : PullRequest) :
    String → ReviewerAgg :=
  (allReviewers (requestedReviewers pr.reviewRequests) (resolvedOf pr)).foldl
    (fun f x => updFun f x (prReviewStep now pr (f x) x)) agg

/-- The whole aggregation pass (source line 72): fold `processPR` over
the PR list, starting from the empty reviewers map. -/
def processAll (now : Int) (prs : List PullRequest) : String → ReviewerAgg :=
  prs.foldl (processPR now) (fun _ => emptyAgg)

/-- The pending decision of reviewer `r` on PR record `pr`. -/
def isPendingPR (pr : PullRequest) (r : String) : Bool :=
  isPendingOf (requestedReviewers pr.reviewRequests) (resolvedOf pr) r

/-! ### Helper lemmas: `setDedup` -/

lemma setDedup_aux_mem (l : List String) :
    ∀ (acc : List String) (x : String),
      x ∈ l.foldl (fun a y => if y ∈ a then a else a ++ [y]) acc ↔ x ∈ acc ∨ x ∈ l := by
  induction l with
  | nil => intro acc x; simp
  | cons y tl ih =>
    intro acc x
    by_cases hy : y ∈ acc
    · rw [List.foldl_cons, if_pos hy, ih]
      constructor
      · rintro (h | h)
        · exact Or.inl h
        · exact Or.inr (List.mem_cons_of_mem _ h)
      · rintro (h | h)
        · exact Or.inl h
        · rcases List.mem_cons.mp h with h | h
          · exact Or.inl (h ▸ hy)
          · exact Or.inr h
    · rw [List.foldl_cons, if_neg hy, ih]
      simp [List.mem_append, List.mem_cons, or_assoc]

lemma setDedup_aux_nodup (l : List String) :
    ∀ acc : List String, acc.Nodup →
      (l.foldl (fun a y => if y ∈ a then a else a ++ [y]) acc).Nodup := by
  induction l with
  | nil => intro acc h; simpa using h
  | cons y tl ih =>
    intro acc h
    by_cases hy : y ∈ acc
    · rw [List.foldl_cons, if_pos hy]; exact ih acc h
    · rw [List.foldl_cons, if_neg hy]
      refine ih _ ?_
      rw [List.nodup_append]
      exact ⟨h, List.nodup_singleton y, fun a ha hay => hy ((List.mem_singleton.mp hay) ▸ ha)⟩

lemma setDedup_aux_sublist (l : List String) :
    ∀ acc : List String, ∃ t, l.foldl (fun a y => if y ∈ a then a else a ++ [y]) acc = acc ++ t ∧
      t.Sublist l := by
  induction l with
  | nil => intro acc; exact ⟨[], by simp⟩
  | cons y tl ih =>
    intro acc
    by_cases hy : y ∈ acc
    · rw [List.foldl_cons, if_pos hy]
      obtain ⟨t, ht, hs⟩ := ih acc
      exact ⟨t, ht, hs.cons y⟩
    · rw [List.foldl_cons, if_neg hy]
      obtain ⟨t, ht, hs⟩ := ih (acc ++ [y])
      exact ⟨y :: t, by simpa using ht, hs.cons₂ y⟩

lemma setDedup_mem (l : List String) (x : String) : x ∈ setDedup l ↔ x ∈ l := by
  unfold setDedup
  rw [setDedup_aux_mem]
  simp

lemma setDedup_nodup (l : List String) : (setDedup l).Nodup :=
  setDedup_aux_nodup l [] List.nodup_nil

lemma setDedup_sublist (l : List String) : (setDedup l).Sublist l := by
  obtain ⟨t, ht, hs⟩ := setDedup_aux_sublist l []
  unfold setDedup
  rw [ht]
  simpa using hs

/-! ### Helper lemmas: association-list map operations -/

lemma lookupA_updateAssoc (m : List (String × String)) (k v r : String) :
    lookupA (updateAssoc m k v) r = if k = r then some v else lookupA m r := by
  induction m with
  | nil => simp [updateAssoc, lookupA]
  | cons p rest ih =>
    by_cases hk : p.1 = k
    · rw [updateAssoc, if_pos hk]
      by_cases hr : k = r
      · simp [lookupA, hr]
      · simp only [lookupA, if_neg hr]
        rw [if_neg (by rw [hk]; exact hr)]
    · rw [updateAssoc, if_neg hk]
      by_cases hr : p.1 = r
      · rw [lookupA, if_pos hr, lookupA, if_pos hr, if_neg (by rw [← hr]; exact fun h => hk h.symm)]
      · rw [lookupA, if_neg hr, lookupA, if_neg hr, ih]

lemma lookupA_some_mem (m : List (String × String)) (r s : String)
    (h : lookupA m r = some s) : r ∈ m.map Prod.fst := by
  induction m with
  | nil => simp [lookupA] at h
  | cons p rest ih =>
    rw [lookupA] at h
    by_cases hr : p.1 = r
    · simp [hr.symm]
    · rw [if_neg hr] at h
      exact List.mem_cons_of_mem _ (ih h)

/-! ### Helper lemmas: the resolver's single-reviewer fold -/

lemma updState_cases (cur : Option String) (s : String) :
    updState cur s = some s ∨ updState cur s = cur := by
  unfold updState
  split_ifs
  · exact Or.inl rfl
  · exact Or.inr rfl

lemma updState_none (s : String) : updState none s = some s := by
  unfold updState
  rw [if_pos (show updCond none s from Or.inl rfl)]

lemma updState_to_CR (cur : Option String) :
    updState cur "CHANGES_REQUESTED" = some "CHANGES_REQUESTED" := by
  unfold updState
  rw [if_pos (show updCond cur "CHANGES_REQUESTED" from Or.inr (Or.inl rfl))]

lemma updState_some_CR (s : String) :
    updState (some "CHANGES_REQUESTED") s = some "CHANGES_REQUESTED" := by
  unfold updState
  split_ifs with h
  · rcases h with h | h | ⟨h1, _⟩ | ⟨h1, _, _⟩
    · simp [isFalsyOpt] at h
    · exact h ▸ rfl
    · exact absurd rfl h1
    · exact absurd rfl h1
  · rfl

lemma updState_to_AP (cur : Option String) (h : ¬ cur = some "CHANGES_REQUESTED") :
    updState cur "APPROVED" = some "APPROVED" := by
  unfold updState
  rw [if_pos (show updCond cur "APPROVED" from Or.inr (Or.inr (Or.inl ⟨h, rfl⟩)))]

lemma updState_some_AP (s : String) (hs : s ≠ "CHANGES_REQUESTED") :
    updState (some "APPROVED") s = some "APPROVED" := by
  unfold updState
  split_ifs with h
  · rcases h with h | h | ⟨_, h2⟩ | ⟨_, h2, _⟩
    · simp [isFalsyOpt] at h
    · exact absurd h hs
    · exact h2 ▸ rfl
    · exact absurd rfl h2
  · rfl

lemma updState_to_CO (cur : Option String) (h1 : ¬ cur = some "CHANGES_REQUESTED")
    (h2 : ¬ cur = some "APPROVED") : updState cur "COMMENTED" = some "COMMENTED" := by
  unfold updState
  rw [if_pos (show updCond cur "COMMENTED" from Or.inr (Or.inr (Or.inr ⟨h1, h2, rfl⟩)))]

lemma updState_some_CO (s : String) (h1 : s ≠ "CHANGES_REQUESTED") (h2 : s ≠ "APPROVED") :
    updState (some "COMMENTED") s = some "COMMENTED" := by
  unfold updState
  split_ifs with h
  · rcases h with h | h | ⟨_, h4⟩ | ⟨_, _, h5⟩
    · simp [isFalsyOpt] at h
    · exact absurd h h1
    · exact absurd h4 h2
    · exact h5 ▸ rfl
  · rfl

lemma updState_keep_low (c s : String) (hc : c ≠ "") (h1 : s ≠ "CHANGES_REQUESTED")
    (h2 : s ≠ "APPROVED") (h3 : s ≠ "COMMENTED") : updState (some c) s = some c := by
  unfold updState
  rw [if_neg]
  rintro (h | h | ⟨_, h4⟩ | ⟨_, _, h5⟩)
  · rw [isFalsyOpt, decide_eq_true_eq] at h
    exact hc h
  · exact h1 h
  · exact h2 h4
  · exact h3 h5

lemma resolveFold_CR (S : List String) :
    ∀ cur : Option String, (cur = some "CHANGES_REQUESTED" ∨ "CHANGES_REQUESTED" ∈ S) →
      resolveFold cur S = some "CHANGES_REQUESTED" := by
  induction S with
  | nil =>
    rintro cur (h | h)
    · exact h ▸ rfl
    · simp at h
  | cons s tl ih =>
    rintro cur (h | h)
    · subst h
      rw [resolveFold, List.foldl_cons, ← resolveFold, updState_some_CR]
      exact ih _ (Or.inl rfl)
    · rcases List.mem_cons.mp h with h | h
      · subst h
        rw [resolveFold, List.foldl_cons, ← resolveFold, updState_to_CR]
        exact ih _ (Or.inl rfl)
      · rw [resolveFold, List.foldl_cons, ← resolveFold]
        exact ih _ (Or.inr h)

lemma resolveFold_AP (S : List String) :
    ∀ cur : Option String, "CHANGES_REQUESTED" ∉ S → ¬ cur = some "CHANGES_REQUESTED" →
      (cur = some "APPROVED" ∨ "APPROVED" ∈ S) → resolveFold cur S = some "APPROVED" := by
  induction S with
  | nil =>
    rintro cur _ _ (h | h)
    · exact h ▸ rfl
    · simp at h
  | cons s tl ih =>
    rintro cur hcr hcur (h | h)
    · subst h
      rw [resolveFold, List.foldl_cons, ← resolveFold,
        updState_some_AP s (fun hs => hcr (hs ▸ List.mem_cons_self s tl))]
      exact ih _ (fun hm => hcr (List.mem_cons_of_mem _ hm)) (by simp) (Or.inl rfl)
    · rcases List.mem_cons.mp h with h | h
      · subst h
        rw [resolveFold, List.foldl_cons, ← resolveFold, updState_to_AP cur hcur]
        exact ih _ (fun hm => hcr (List.mem_cons_of_mem _ hm)) (by simp) (Or.inl rfl)
      · rw [resolveFold, List.foldl_cons, ← resolveFold]
        refine ih _ (fun hm => hcr (List.mem_cons_of_mem _ hm)) ?_ (Or.inr h)
        rcases updState_cases cur s with hu | hu
        · rw [hu]
          intro he
          exact hcr (by rw [Option.some.injEq] at he; exact he ▸ List.mem_cons_self s tl)
        · rw [hu]; exact hcur

lemma resolveFold_CO (S : List String) :
    ∀ cur : Option String, "CHANGES_REQUESTED" ∉ S → "APPROVED" ∉ S →
      ¬ cur = some "CHANGES_REQUESTED" → ¬ cur = some "APPROVED" →
      (cur = some "COMMENTED" ∨ "COMMENTED" ∈ S) → resolveFold cur S = some "COMMENTED" := by
  induction S with
  | nil =>
    rintro cur _ _ _ _ (h | h)
    · exact h ▸ rfl
    · simp at h
  | cons s tl ih =>
    rintro cur hcr hap hcur1 hcur2 (h | h)
    · subst h
      rw [resolveFold, List.foldl_cons, ← resolveFold,
        updState_some_CO s (fun hs => hcr (hs ▸ List.mem_cons_self s tl))
          (fun hs => hap (hs ▸ List.mem_cons_self s tl))]
      exact ih _ (fun hm => hcr (List.mem_cons_of_mem _ hm))
        (fun hm => hap (List.mem_cons_of_mem _ hm)) (by simp) (by simp) (Or.inl rfl)
    · rcases List.mem_cons.mp h with h | h
      · subst h
        rw [resolveFold, List.foldl_cons, ← resolveFold, updState_to_CO cur hcur1 hcur2]
        exact ih _ (fun hm => hcr (List.mem_cons_of_mem _ hm))
          (fun hm => hap (List.mem_cons_of_mem _ hm)) (by simp) (by simp) (Or.inl rfl)
      · rw [resolveFold, List.foldl_cons, ← resolveFold]
        have hne : ∀ v : String, updState cur s = some v → v = s ∨ some v = cur := by
          intro v hv
          rcases updState_cases cur s with hu | hu
          · rw [hu, Option.some.injEq] at hv
            exact Or.inl hv.symm
          · rw [hu] at hv
            exact Or.inr hv.symm
        refine ih _ (fun hm => hcr (List.mem_cons_of_mem _ hm))
          (fun hm => hap (List.mem_cons_of_mem _ hm)) ?_ ?_ (Or.inr h)
        · intro he
          rcases hne _ he with hv | hv
          · exact hcr (hv ▸ List.mem_cons_self s tl)
          · exact hcur1 hv.symm
        · intro he
          rcases hne _ he with hv | hv
          · exact hap (hv ▸ List.mem_cons_self s tl)
          · exact hcur2 hv.symm

lemma resolveFold_low (S : List String) :
    ∀ c : String, c ≠ "" → "CHANGES_REQUESTED" ∉ S → "APPROVED" ∉ S → "COMMENTED" ∉ S →
      resolveFold (some c) S = some c := by
  induction S with
  | nil => intro c _ _ _ _; rfl
  | cons s tl ih =>
    intro c hc hcr hap hco
    rw [resolveFold, List.foldl_cons, ← resolveFold,
      updState_keep_low c s hc (fun hs => hcr (hs ▸ List.mem_cons_self s tl))
        (fun hs => hap (hs ▸ List.mem_cons_self s tl))
        (fun hs => hco (hs ▸ List.mem_cons_self s tl))]
    exact ih c hc (fun hm => hcr (List.mem_cons_of_mem _ hm))
      (fun hm => hap (List.mem_cons_of_mem _ hm)) (fun hm => hco (List.mem_cons_of_mem _ hm))

lemma resolveFold_eval (S : List String) (hne : S ≠ []) (hemp : "" ∉ S) :
    resolveFold none S =
      some (if "CHANGES_REQUESTED" ∈ S then "CHANGES_REQUESTED"
        else if "APPROVED" ∈ S then "APPROVED"
        else if "COMMENTED" ∈ S then "COMMENTED"
        else S.headI) := by
  by_cases hcr : "CHANGES_REQUESTED" ∈ S
  · rw [if_pos hcr]
    exact resolveFold_CR S none (Or.inr hcr)
  · rw [if_neg hcr]
    by_cases hap : "APPROVED" ∈ S
    · rw [if_pos hap]
      exact resolveFold_AP S none hcr (by simp) (Or.inr hap)
    · rw [if_neg hap]
      by_cases hco : "COMMENTED" ∈ S
      · rw [if_pos hco]
        exact resolveFold_CO S none hcr hap (by simp) (by simp) (Or.inr hco)
      · rw [if_neg hco]
        match S, hne with
        | s :: tl, _ =>
          rw [resolveFold, List.foldl_cons, ← resolveFold, updState_none, List.headI_cons]
          exact resolveFold_low tl s (fun hs => hemp (hs ▸ List.mem_cons_self s tl))
            (fun hm => hcr (List.mem_cons_of_mem _ hm))
            (fun hm => hap (List.mem_cons_of_mem _ hm))
            (fun hm => hco (List.mem_cons_of_mem _ hm))

/-! ### Helper lemmas: the resolver map agrees with the per-reviewer fold -/

lemma resolveStep_skip_none (author : Option String) (m : List (String × String))
    (rv : Review) (h : rv.authorLogin = none) : resolveStep author m rv = m := by
  unfold resolveStep
  rw [h]

lemma resolveStep_skip_empty (author : Option String) (m : List (String × String))
    (rv : Review) (login : String) (h : rv.authorLogin = some login) (hl : login = "") :
    resolveStep author m rv = m := by
  unfold resolveStep
  rw [h]
  exact if_pos hl

lemma resolveStep_skip_self (author : Option String) (m : List (String × String))
    (rv : Review) (login : String) (h : rv.authorLogin = some login) (hl : ¬ login = "")
    (ha : author = some login) : resolveStep author m rv = m := by
  unfold resolveStep
  rw [h]
  show (if login = "" then m
    else if author = some login then m
    else if updCond (lookupA m login) rv.state then updateAssoc m login rv.state else m) = m
  rw [if_neg hl]
  exact if_pos ha

lemma resolveStep_upd (author : Option String) (m : List (String × String))
    (rv : Review) (login : String) (h : rv.authorLogin = some login) (hl : ¬ login = "")
    (ha : ¬ author = some login) (hc : updCond (lookupA m login) rv.state) :
    resolveStep author m rv = updateAssoc m login rv.state := by
  unfold resolveStep
  rw [h]
  show (if login = "" then m
    else if author = some login then m
    else if updCond (lookupA m login) rv.state then updateAssoc m login rv.state else m) =
    updateAssoc m login rv.state
  rw [if_neg hl, if_neg ha]
  exact if_pos hc

lemma resolveStep_keep (author : Option String) (m : List (String × String))
    (rv : Review) (login : String) (h : rv.authorLogin = some login) (hl : ¬ login = "")
    (ha : ¬ author = some login) (hc : ¬ updCond (lookupA m login) rv.state) :
    resolveStep author m rv = m := by
  unfold resolveStep
  rw [h]
  show (if login = "" then m
    else if author = some login then m
    else if updCond (lookupA m login) rv.state then updateAssoc m login rv.state else m) = m
  rw [if_neg hl, if_neg ha]
  exact if_neg hc

lemma submittedStates_cons_none (author : Option String) (r : String) (rv : Review)
    (tl : List Review) (h : rv.authorLogin = none) :
    submittedStates author r (rv :: tl) = submittedStates author r tl := by
  unfold submittedStates
  rw [List.filterMap_cons, h]

lemma submittedStates_cons_empty (author : Option String) (r : String) (rv : Review)
    (tl : List Review) (login : String) (h : rv.authorLogin = some login) (hl : login = "") :
    submittedStates author r (rv :: tl) = submittedStates author r tl := by
  unfold submittedStates
  rw [List.filterMap_cons, h]
  simp only [if_pos hl]

lemma submittedStates_cons_self (author : Option String) (r : String) (rv : Review)
    (tl : List Review) (login : String) (h : rv.authorLogin = some login) (hl : ¬ login = "")
    (ha : author = some login) :
    submittedStates author r (rv :: tl) = submittedStates author r tl := by
  unfold submittedStates
  rw [List.filterMap_cons, h]
  simp only [if_neg hl, if_pos ha]

lemma submittedStates_cons_hit (author : Option String) (r : String) (rv : Review)
    (tl : List Review) (login : String) (h : rv.authorLogin = some login) (hl : ¬ login = "")
    (ha : ¬ author = some login) (hr : login = r) :
    submittedStates author r (rv :: tl) = rv.state :: submittedStates author r tl := by
  unfold submittedStates
  rw [List.filterMap_cons, h]
  simp only [if_neg hl, if_neg ha, if_pos hr]

lemma submittedStates_cons_miss (author : Option String) (r : String) (rv : Review)
    (tl : List Review) (login : String) (h : rv.authorLogin = some login) (hl : ¬ login = "")
    (ha : ¬ author = some login) (hr : ¬ login = r) :
    submittedStates author r (rv :: tl) = submittedStates author r tl := by
  unfold submittedStates
  rw [List.filterMap_cons, h]
  simp only [if_neg hl, if_neg ha, if_neg hr]

lemma resolve_bridge (author : Option String) (r : String) (rs : List Review) :
    ∀ m : List (String × String),
      lookupA (rs.foldl (resolveStep author) m) r =
        resolveFold (lookupA m r) (submittedStates author r rs) := by
  induction rs with
  | nil => intro m; rfl
  | cons rv tl ih =>
    intro m
    rw [List.foldl_cons]
    match hrv : rv.authorLogin with
    | none =>
      rw [resolveStep_skip_none author m rv hrv, ih, submittedStates_cons_none author r rv tl hrv]
    | some login =>
      by_cases hl : login = ""
      · rw [resolveStep_skip_empty author m rv login hrv hl, ih,
          submittedStates_cons_empty author r rv tl login hrv hl]
      · by_cases ha : author = some login
        · rw [resolveStep_skip_self author m rv login hrv hl ha, ih,
            submittedStates_cons_self author r rv tl login hrv hl ha]
        · by_cases hr : login = r
          · rw [submittedStates_cons_hit author r rv tl login hrv hl ha hr,
              resolveFold, List.foldl_cons, ← resolveFold]
            by_cases hc : updCond (lookupA m login) rv.state
            · rw [resolveStep_upd author m rv login hrv hl ha hc, ih, lookupA_updateAssoc,
                if_pos hr]
              have : updState (lookupA m r) rv.state = some rv.state := by
                rw [updState, if_pos (hr ▸ hc)]
              rw [this]
            · rw [resolveStep_keep author m rv login hrv hl ha hc, ih]
              have : updState (lookupA m r) rv.state = lookupA m r := by
                rw [updState, if_neg (hr ▸ hc)]
              rw [this]
          · rw [submittedStates_cons_miss author r rv tl login hrv hl ha hr]
            by_cases hc : updCond (lookupA m login) rv.state
            · rw [resolveStep_upd author m rv login hrv hl ha hc, ih, lookupA_updateAssoc,
                if_neg hr]
            · rw [resolveStep_keep author m rv login hrv hl ha hc, ih]

/-! ### Helper lemmas: the per-PR aggregation loop -/

lemma allReviewers_mem (requested : List String) (m : List (String × String)) (x : String) :
    x ∈ allReviewers requested m ↔ x ∈ requested ∨ x ∈ m.map Prod.fst := by
  unfold allReviewers
  rw [setDedup_mem, List.mem_append]

lemma allReviewers_nodup (requested : List String) (m : List (String × String)) :
    (allReviewers requested m).Nodup :=
  setDedup_nodup _

lemma isPendingOf_mem (requested : List String) (m : List (String × String)) (r : String)
    (h : isPendingOf requested m r = true) : r ∈ allReviewers requested m := by
  rw [allReviewers_mem]
  rcases hl : lookupA m r with _ | s
  · left
    unfold isPendingOf at h
    rw [hl] at h
    simpa using h
  · right
    exact lookupA_some_mem m r s hl

lemma foldl_upd_not_mem (g : ReviewerAgg → String → ReviewerAgg) (L : List String) :
    ∀ (agg : String → ReviewerAgg) (r : String), r ∉ L →
      (L.foldl (fun f x => updFun f x (g (f x) x)) agg) r = agg r := by
  induction L with
  | nil => intro agg r _; rfl
  | cons x tl ih =>
    intro agg r hr
    rw [List.foldl_cons, ih _ r (fun h => hr (List.mem_cons_of_mem _ h))]
    unfold updFun
    rw [if_neg (fun h : r = x => hr (by rw [h]; exact List.mem_cons_self x tl))]

lemma foldl_upd_apply (g : ReviewerAgg → String → ReviewerAgg) (L : List String) :
    ∀ (agg : String → ReviewerAgg) (r : String), L.Nodup →
      (L.foldl (fun f x => updFun f x (g (f x) x)) agg) r =
        if r ∈ L then g (agg r) r else agg r := by
  induction L with
  | nil =>
    intro agg r _
    rw [if_neg (List.not_mem_nil r)]
    rfl
  | cons x tl ih =>
    intro agg r hn
    rcases List.nodup_cons.mp hn with ⟨hx, htl⟩
    rw [List.foldl_cons]
    by_cases hr : r = x
    · subst hr
      rw [foldl_upd_not_mem g tl _ r hx]
      unfold updFun
      rw [if_pos rfl, if_pos (List.mem_cons_self r tl)]
    · have hupd : updFun agg x (g (agg x) x) r = agg r := by
        unfold updFun
        rw [if_neg hr]
      rw [ih _ r htl, hupd]
      by_cases hm : r ∈ tl
      · rw [if_pos hm, if_pos (List.mem_cons_of_mem _ hm)]
      · rw [if_neg hm, if_neg (fun hmem => by
          rcases List.mem_cons.mp hmem with h | h
          · exact hr h
          · exact hm h)]

lemma mkPrDetail_number (requested : List String) (m : List (String × String))
    (pr : PullRequest) (pa : String) (d : Int) (st : String) (ap : Nat) (p : Bool) :
    (mkPrDetail requested m pr pa d st ap p).number = pr.number := rfl

lemma mkPrDetail_isPending (requested : List String) (m : List (String × String))
    (pr : PullRequest) (pa : String) (d : Int) (st : String) (ap : Nat) (p : Bool) :
    (mkPrDetail requested m pr pa d st ap p).isPending = p := rfl

lemma filter_isPending_singleton (dt : PrDetail) :
    (List.filter (fun x => x.isPending) [dt]).length = if dt.isPending then 1 else 0 := by
  by_cases h : dt.isPending = true
  · simp [List.filter_cons, h]
  · simp [List.filter_cons, h]

lemma step_pending (requested : List String) (m : List (String × String))
    (pr : PullRequest) (pa : String) (d : Int) (st : String) (ap : Nat)
    (agg : ReviewerAgg) (r : String) :
    (stepReviewer requested m pr pa d st ap agg r).pending =
      if isPendingOf requested m r then agg.pending + 1 else agg.pending := by
  unfold stepReviewer
  split_ifs <;> rfl

lemma step_details (requested : List String) (m : List (String × String))
    (pr : PullRequest) (pa : String) (d : Int) (st : String) (ap : Nat)
    (agg : ReviewerAgg) (r : String) :
    (stepReviewer requested m pr pa d st ap agg r).prDetails =
      if agg.prDetails.any (fun dt => decide (dt.number = pr.number)) then agg.prDetails
      else agg.prDetails ++ [mkPrDetail requested m pr pa d st ap (isPendingOf requested m r)] := by
  unfold stepReviewer
  split_ifs <;> rfl

lemma step_details_stale (requested : List String) (m : List (String × String))
    (pr : PullRequest) (pa : String) (d : Int) (st : String) (ap : Nat)
    (agg : ReviewerAgg) (r : String)
    (h : pr.number ∈ agg.prDetails.map PrDetail.number) :
    (stepReviewer requested m pr pa d st ap agg r).prDetails = agg.prDetails := by
  rw [step_details]
  rcases List.mem_map.mp h with ⟨dt, hdt, heq⟩
  rw [if_pos (List.any_eq_true.mpr ⟨dt, hdt, decide_eq_true heq⟩)]

lemma step_details_fresh (requested : List String) (m : List (String × String))
    (pr : PullRequest) (pa : String) (d : Int) (st : String) (ap : Nat)
    (agg : ReviewerAgg) (r : String)
    (h : pr.number ∉ agg.prDetails.map PrDetail.number) :
    (stepReviewer requested m pr pa d st ap agg r).prDetails =
      agg.prDetails ++ [mkPrDetail requested m pr pa d st ap (isPendingOf requested m r)] := by
  rw [step_details]
  rw [if_neg (fun hany => by
    rcases List.any_eq_true.mp hany with ⟨dt, hdt, hdec⟩
    exact h (List.mem_map.mpr ⟨dt, hdt, of_decide_eq_true hdec⟩))]

lemma processPR_apply (now : Int) (agg : String → ReviewerAgg) (pr : PullRequest)
    (r : String) :
    processPR now agg pr r =
      if r ∈ allReviewers (requestedReviewers pr.reviewRequests) (resolvedOf pr)
      then prReviewStep now pr (agg r) r
      else agg r := by
  unfold processPR
  exact foldl_upd_apply (prReviewStep now pr) _ agg r (allReviewers_nodup _ _)

lemma isPendingPR_mem (pr : PullRequest) (r : String) (h : isPendingPR pr r = true) :
    r ∈ allReviewers (requestedReviewers pr.reviewRequests) (resolvedOf pr) :=
  isPendingOf_mem _ _ _ h

lemma processPR_pending (now : Int) (agg : String → ReviewerAgg) (pr : PullRequest)
    (r : String) :
    (processPR now agg pr r).pending =
      (agg r).pending + (if isPendingPR pr r then 1 else 0) := by
  rw [processPR_apply]
  by_cases hm : r ∈ allReviewers (requestedReviewers pr.reviewRequests) (resolvedOf pr)
  · rw [if_pos hm]
    unfold prReviewStep
    rw [step_pending]
    unfold isPendingPR
    by_cases hp : isPendingOf (requestedReviewers pr.reviewRequests) (resolvedOf pr) r
    · rw [if_pos hp, if_pos hp]
    · rw [if_neg hp, if_neg hp, Nat.add_zero]
  · rw [if_neg hm, if_neg (fun hp : isPendingPR pr r = true => hm (isPendingPR_mem pr r hp)),
      Nat.add_zero]

lemma processAll_pending_aux (now : Int) (r : String) (prs : List PullRequest) :
    ∀ agg : String → ReviewerAgg,
      (prs.foldl (processPR now) agg r).pending =
        (agg r).pending + (prs.filter (fun pr => isPendingPR pr r)).length := by
  induction prs with
  | nil => intro agg; rw [List.foldl_nil, List.filter_nil, List.length_nil, Nat.add_zero]
  | cons pr tl ih =>
    intro agg
    rw [List.foldl_cons, ih, processPR_pending, List.filter_cons]
    by_cases hp : isPendingPR pr r
    · rw [if_pos hp, if_pos hp, List.length_cons]
      omega
    · rw [if_neg hp, if_neg hp, Nat.add_zero]

lemma processPR_details (now : Int) (agg : String → ReviewerAgg) (pr : PullRequest)
    (r : String) (h : pr.number ∉ (agg r).prDetails.map PrDetail.number) :
    (processPR now agg pr r).prDetails =
      (agg r).prDetails ++
        (if r ∈ allReviewers (requestedReviewers pr.reviewRequests) (resolvedOf pr)
         then [mkPrDetail (requestedReviewers pr.reviewRequests) (resolvedOf pr) pr
            (prAuthorOf pr) (daysOpenOf now pr) (prStatus (resolvedOf pr))
            (approvalCount (resolvedOf pr)) (isPendingPR pr r)]
         else []) := by
  rw [processPR_apply]
  by_cases hm : r ∈ allReviewers (requestedReviewers pr.reviewRequests) (resolvedOf pr)
  · rw [if_pos hm, if_pos hm]
    unfold prReviewStep
    exact step_details_fresh _ _ _ _ _ _ _ _ _ h
  · rw [if_neg hm, if_neg hm, List.append_nil]

lemma processPR_details_numbers (now : Int) (agg : String → ReviewerAgg)
    (pr : PullRequest) (r : String) (x : Int)
    (hx : x ∈ (processPR now agg pr r).prDetails.map PrDetail.number) :
    x ∈ (agg r).prDetails.map PrDetail.number ∨ x = pr.number := by
  rw [processPR_apply] at hx
  by_cases hm : r ∈ allReviewers (requestedReviewers pr.reviewRequests) (resolvedOf pr)
  · rw [if_pos hm] at hx
    unfold prReviewStep at hx
    rw [step_details] at hx
    by_cases hany : (agg r).prDetails.any (fun dt => decide (dt.number = pr.number))
    · rw [if_pos hany] at hx
      exact Or.inl hx
    · rw [if_neg hany, List.map_append, List.mem_append] at hx
      rcases hx with hx | hx
      · exact Or.inl hx
      · right
        rcases List.mem_map.mp hx with ⟨dt, hdt, heq⟩
        rw [List.mem_singleton.mp hdt] at heq
        exact heq.symm
  · rw [if_neg hm] at hx
    exact Or.inl hx

lemma step_nodup (requested : List String) (m : List (String × String))
    (pr : PullRequest) (pa : String) (d : Int) (st : String) (ap : Nat)
    (agg : ReviewerAgg) (r : String)
    (h : (agg.prDetails.map PrDetail.number).Nodup) :
    ((stepReviewer requested m pr pa d st ap agg r).prDetails.map PrDetail.number).Nodup := by
  by_cases hmem : pr.number ∈ agg.prDetails.map PrDetail.number
  · rw [step_details_stale _ _ _ _ _ _ _ _ _ hmem]
    exact h
  · rw [step_details_fresh _ _ _ _ _ _ _ _ _ hmem, List.map_append, List.nodup_append]
    refine ⟨h, List.nodup_singleton _, fun a ha hb => hmem ?_⟩
    rwa [List.mem_singleton.mp hb, mkPrDetail_number] at ha

lemma processPR_nodup (now : Int) (agg : String → ReviewerAgg) (pr : PullRequest)
    (r : String) (h : ((agg r).prDetails.map PrDetail.number).Nodup) :
    ((processPR now agg pr r).prDetails.map PrDetail.number).Nodup := by
  rw [processPR_apply]
  by_cases hm : r ∈ allReviewers (requestedReviewers pr.reviewRequests) (resolvedOf pr)
  · rw [if_pos hm]
    exact step_nodup _ _ _ _ _ _ _ _ _ h
  · rw [if_neg hm]
    exact h

lemma processAll_nodup_aux (now : Int) (r : String) (prs : List PullRequest) :
    ∀ agg : String → ReviewerAgg, ((agg r).prDetails.map PrDetail.number).Nodup →
      ((prs.foldl (processPR now) agg r).prDetails.map PrDetail.number).Nodup := by
  induction prs with
  | nil => intro agg h; exact h
  | cons pr tl ih =>
    intro agg h
    rw [List.foldl_cons]
    exact ih _ (processPR_nodup now agg pr r h)

lemma processAll_details_aux (now : Int) (r : String) (prs : List PullRequest) :
    ∀ agg : String → ReviewerAgg, (prs.map PullRequest.number).Nodup →
      (∀ pr ∈ prs, pr.number ∉ (agg r).prDetails.map PrDetail.number) →
      ((prs.foldl (processPR now) agg r).prDetails.filter (fun dt => dt.isPending)).length =
        ((agg r).prDetails.filter (fun dt => dt.isPending)).length +
          (prs.filter (fun pr => isPendingPR pr r)).length := by
  induction prs with
  | nil => intro agg _ _; rw [List.foldl_nil, List.filter_nil, List.length_nil, Nat.add_zero]
  | cons pr tl ih =>
    intro agg hnd hfresh
    rw [List.map_cons] at hnd
    rcases List.nodup_cons.mp hnd with ⟨hhead, htl⟩
    have hfr : pr.number ∉ (agg r).prDetails.map PrDetail.number :=
      hfresh pr (List.mem_cons_self pr tl)
    have key : ((processPR now agg pr r).prDetails.filter (fun dt => dt.isPending)).length =
        ((agg r).prDetails.filter (fun dt => dt.isPending)).length +
          (if isPendingPR pr r then 1 else 0) := by
      rw [processPR_details now agg pr r hfr]
      by_cases hm : r ∈ allReviewers (requestedReviewers pr.reviewRequests) (resolvedOf pr)
      · rw [if_pos hm, List.filter_append, List.length_append, filter_isPending_singleton,
          mkPrDetail_isPending]
      · rw [if_neg hm, List.append_nil,
          if_neg (fun hp : isPendingPR pr r = true => hm (isPendingPR_mem pr r hp)),
          Nat.add_zero]
    rw [List.foldl_cons, ih (processPR now agg pr) htl ?_, key, List.filter_cons]
    · by_cases hp : isPendingPR pr r
      · rw [if_pos hp, if_pos hp, List.length_cons]
        omega
      · rw [if_neg hp, if_neg hp, Nat.add_zero]
    · intro q hq hqin
      rcases processPR_details_numbers now agg pr r q.number hqin with hin | heq
      · exact hfresh q (List.mem_cons_of_mem _ hq) hin
      · exact hhead (heq ▸ List.mem_map.mpr ⟨q, hq, rfl⟩)

/-! ### Concrete records used by counterexamples and witnesses -/

/-- A review by alice with state PENDING. -/
def rvPending : Review := ⟨some "alice", none, "PENDING"⟩

/-- A review by alice with state DISMISSED. -/
def rvDismissed : Review := ⟨some "alice", none, "DISMISSED"⟩

/-- A review by alice with state COMMENTED. -/
def rvCommented : Review := ⟨some "alice", none, "COMMENTED"⟩

/-- A review by alice with state APPROVED. -/
def rvApproved : Review := ⟨some "alice", none, "APPROVED"⟩

/-- A PR where reviewer r is requested and has one review with the
empty-string state. -/
def prEmptyStateReq : PullRequest :=
  ⟨1, none, none, none, 0, false, some [⟨some "r", none⟩],
    some [⟨some "r", none, ""⟩]⟩

/-- A PR where reviewer q is requested and has one review with the
empty-string state. -/
def prEmptyStateReqQ : PullRequest :=
  ⟨3, none, none, none, 0, false, some [⟨some "q", none⟩],
    some [⟨some "q", none, ""⟩]⟩

/-- A PR record with no author, no review requests and no reviews. -/
def prBare : PullRequest := ⟨7, none, none, none, 0, false, none, none⟩

/-- A PR with three APPROVED reviews and one CHANGES_REQUESTED review
by four distinct reviewers. -/
def prThreeApprovals : PullRequest :=
  ⟨2, none, some "author", none, 0, false, none,
    some [⟨some "b", none, "APPROVED"⟩, ⟨some "c", none, "APPROVED"⟩,
      ⟨some "d", none, "APPROVED"⟩, ⟨some "e", none, "CHANGES_REQUESTED"⟩]⟩

/-- Two review requests carrying the same login. -/
def dupRequests : List ReviewRequest := [⟨some "a", none⟩, ⟨some "a", none⟩]

/-- Review requests with one entry that has no login. -/
def mixedRequests : List ReviewRequest :=
  [⟨some "a", none⟩, ⟨none, none⟩, ⟨some "b", none⟩]

/-- A detail entry with PR number 1. -/
def dtOne : PrDetail :=
  ⟨1, none, "x", 0, "#d4d4d4", "", 0, "needs_review", true, 0, false, ""⟩

/-- An aggregate already holding an entry for PR number 1. -/
def aggOne : ReviewerAgg := ⟨0, [dtOne]⟩

/-! ### Claim theorems -/

/-- Claim C1: with `approvalCount` the number of reviewers whose
resolved state is APPROVED, a PR whose approval count reaches the
threshold (3) is `ready_to_merge` — even when some resolved state is
CHANGES_REQUESTED — otherwise a CHANGES_REQUESTED resolved state gives
`changes_requested`, otherwise `needs_review`. -/
theorem c1_pr_status_classification : ∀ pr : PullRequest,
    REQUIRED_APPROVALS = 3 ∧
    approvalCount (resolvedOf pr) =
      ((resolvedOf pr).filter (fun p => decide (p.2 = "APPROVED"))).length ∧
    (REQUIRED_APPROVALS ≤ approvalCount (resolvedOf pr) →
      prStatus (resolvedOf pr) = "ready_to_merge") ∧
    (approvalCount (resolvedOf pr) < REQUIRED_APPROVALS →
      ((resolvedOf pr).any (fun p => decide (p.2 = "CHANGES_REQUESTED")) = true →
        prStatus (resolvedOf pr) = "changes_requested") ∧
      ((resolvedOf pr).any (fun p => decide (p.2 = "CHANGES_REQUESTED")) = false →
        prStatus (resolvedOf pr) = "needs_review")) := by
  intro pr
  refine ⟨rfl, rfl, fun h => ?_, fun h => ⟨fun hcr => ?_, fun hcr => ?_⟩⟩
  · unfold prStatus
    rw [if_pos h]
  · unfold prStatus
    rw [if_neg (by omega), if_pos hcr]
  · unfold prStatus
    rw [if_neg (by omega), if_neg (by simp [hcr])]

/-- Witness for C1: a PR with three APPROVED resolved states and one
CHANGES_REQUESTED resolved state is classified `ready_to_merge`. -/
theorem c1_pr_status_classification_witness :
    approvalCount (resolvedOf prThreeApprovals) = 3 ∧
    (resolvedOf prThreeApprovals).any (fun p => decide (p.2 = "CHANGES_REQUESTED")) = true ∧
    prStatus (resolvedOf prThreeApprovals) = "ready_to_merge" :=
  ⟨by decide, by decide,
    (c1_pr_status_classification prThreeApprovals).2.2.1 (by decide)⟩

/-- Claim C2 (counterexample): the resolver is not the maximum under
the claimed strict order CHANGES_REQUESTED > APPROVED > COMMENTED >
DISMISSED > PENDING: for the submissions [PENDING, DISMISSED] it keeps
PENDING, while the claimed maximum is DISMISSED. -/
theorem c2_resolved_state_counterexample :
    submittedStates none "alice" [rvPending, rvDismissed] = ["PENDING", "DISMISSED"] ∧
    lookupA (resolveAll none (some [rvPending, rvDismissed])) "alice" = some "PENDING" ∧
    specResolvedMax (submittedStates none "alice" [rvPending, rvDismissed]) =
      some "DISMISSED" ∧
    lookupA (resolveAll none (some [rvPending, rvDismissed])) "alice" ≠
      specResolvedMax (submittedStates none "alice" [rvPending, rvDismissed]) := by
  refine ⟨by decide, by decide, by decide, by decide⟩

/-- Claim C2 (amended): for a reviewer with at least one submission
(none with the empty-string state), the resolved state is the maximum
under CHANGES_REQUESTED > APPROVED > COMMENTED, and when none of these
three was submitted it is the first submitted state (DISMISSED,
PENDING and unrecognized states share the lowest precedence,
first-seen wins). -/
theorem c2_resolved_state_amended (author : Option String) (rs : List Review) (r : String)
    (hne : submittedStates author r rs ≠ [])
    (hemp : "" ∉ submittedStates author r rs) :
    lookupA (resolveAll author (some rs)) r =
      some (if "CHANGES_REQUESTED" ∈ submittedStates author r rs then "CHANGES_REQUESTED"
        else if "APPROVED" ∈ submittedStates author r rs then "APPROVED"
        else if "COMMENTED" ∈ submittedStates author r rs then "COMMENTED"
        else (submittedStates author r rs).headI) := by
  have hb := resolve_bridge author r rs []
  rw [show resolveAll author (some rs) = rs.foldl (resolveStep author) [] from rfl, hb]
  exact resolveFold_eval _ hne hemp

/-- Witness for the amended C2: submissions [COMMENTED, APPROVED,
COMMENTED] by alice resolve to APPROVED. -/
theorem c2_resolved_state_amended_witness :
    lookupA (resolveAll none (some [rvCommented, rvApproved, rvCommented])) "alice" =
      some "APPROVED" :=
  (c2_resolved_state_amended none [rvCommented, rvApproved, rvCommented] "alice"
    (by decide) (by decide)).trans (by decide)

/-- Claim C3 (counterexample): with reviewer r requested and one review
by r with the empty-string state, the code counts r as pending
(`pendingCount` = 1), but under the claim's definition of `isPending`
(requested and no resolved state, or resolved state among COMMENTED,
CHANGES_REQUESTED, PENDING) no PR is pending for r. -/
theorem c3_pending_count_counterexample :
    (processAll 0 [prEmptyStateReq] "r").pending = 1 ∧
    ([prEmptyStateReq].filter (fun pr =>
      isPendingSpec (requestedReviewers pr.reviewRequests) (resolvedOf pr) "r")).length = 0 ∧
    (processAll 0 [prEmptyStateReq] "r").pending ≠
      ([prEmptyStateReq].filter (fun pr =>
        isPendingSpec (requestedReviewers pr.reviewRequests) (resolvedOf pr) "r")).length := by
  refine ⟨by decide, by decide, by decide⟩

/-- Claim C3 (amended): for every reviewer, `pendingCount` equals the
number of processed PRs on which the code's pending decision holds
(requested with an absent or empty-string resolved state, or a
non-empty resolved state among COMMENTED, CHANGES_REQUESTED, PENDING);
when PR numbers are unique it also equals the number of that
reviewer's `prDetails` entries with `isPending = true`. -/
theorem c3_pending_count_amended (now : Int) (prs : List PullRequest) (r : String) :
    (processAll now prs r).pending =
      (prs.filter (fun pr => isPendingPR pr r)).length ∧
    ((prs.map PullRequest.number).Nodup →
      (processAll now prs r).pending =
        ((processAll now prs r).prDetails.filter (fun dt => dt.isPending)).length) := by
  constructor
  · unfold processAll
    rw [processAll_pending_aux]
    exact Nat.zero_add _
  · intro hnd
    unfold processAll
    rw [processAll_pending_aux,
      processAll_details_aux now r prs (fun _ => emptyAgg) hnd
        (fun pr _ => by simp [emptyAgg])]
    simp [emptyAgg]

/-- Witness for the amended C3 at a concrete input. -/
theorem c3_pending_count_amended_witness :
    (processAll 0 [prEmptyStateReq] "r").pending =
      ([prEmptyStateReq].filter (fun pr => isPendingPR pr "r")).length ∧
    (processAll 0 [prEmptyStateReq] "r").pending =
      ((processAll 0 [prEmptyStateReq] "r").prDetails.filter (fun dt => dt.isPending)).length :=
  ⟨(c3_pending_count_amended 0 [prEmptyStateReq] "r").1,
    (c3_pending_count_amended 0 [prEmptyStateReq] "r").2 (by decide)⟩

/-- Claim C4: every reviewer's `prDetails` holds at most one entry per
PR number, and a push for a PR number that already has an entry leaves
`prDetails` unchanged (first write wins, whatever the new fields). -/
theorem c4_pr_details_dedup : ∀ (now : Int) (prs : List PullRequest) (r : String),
    ((processAll now prs r).prDetails.map PrDetail.number).Nodup ∧
    (∀ (requested : List String) (m : List (String × String)) (pr : PullRequest)
      (pa : String) (d : Int) (st : String) (ap : Nat) (agg : ReviewerAgg),
      pr.number ∈ agg.prDetails.map PrDetail.number →
      (stepReviewer requested m pr pa d st ap agg r).prDetails = agg.prDetails) := by
  intro now prs r
  constructor
  · unfold processAll
    exact processAll_nodup_aux now r prs _ List.nodup_nil
  · intro requested m pr pa d st ap agg h
    exact step_details_stale _ _ _ _ _ _ _ _ _ h

/-- Witness for C4: processing the same PR (same number) twice leaves a
single entry, and a push onto an aggregate that already holds an entry
for that number changes nothing. -/
theorem c4_pr_details_dedup_witness :
    ((processAll 0 [prEmptyStateReq, prEmptyStateReq] "r").prDetails.map
      PrDetail.number).Nodup ∧
    (stepReviewer [] [] prEmptyStateReq "x" 0 "needs_review" 0 aggOne "r").prDetails =
      aggOne.prDetails :=
  ⟨(c4_pr_details_dedup 0 [prEmptyStateReq, prEmptyStateReq] "r").1,
    (c4_pr_details_dedup 0 [] "r").2 [] [] prEmptyStateReq "x" 0 "needs_review" 0 aggOne
      (by decide)⟩

/-- Claim C5 (counterexample): resolution is not invariant under
permutation of the review submissions: [PENDING, DISMISSED] and
[DISMISSED, PENDING] are permutations of each other but resolve alice
to PENDING and DISMISSED respectively. -/
theorem c5_perm_counterexample :
    List.Perm [rvPending, rvDismissed] [rvDismissed, rvPending] ∧
    resolveAll none (some [rvPending, rvDismissed]) = [("alice", "PENDING")] ∧
    resolveAll none (some [rvDismissed, rvPending]) = [("alice", "DISMISSED")] ∧
    resolveAll none (some [rvPending, rvDismissed]) ≠
      resolveAll none (some [rvDismissed, rvPending]) :=
  ⟨List.Perm.swap rvDismissed rvPending [], by decide, by decide, by decide⟩

/-- Claim C5 (amended): the resolved state of a reviewer is invariant
under permutation of the review submissions whenever that reviewer
submitted at least one CHANGES_REQUESTED, APPROVED or COMMENTED review
(only the lowest-precedence class — DISMISSED, PENDING, unrecognized —
is order-dependent). -/
theorem c5_perm_amended (author : Option String) (rs₁ rs₂ : List Review) (r : String)
    (hperm : List.Perm rs₁ rs₂)
    (hhigh : "CHANGES_REQUESTED" ∈ submittedStates author r rs₁ ∨
      "APPROVED" ∈ submittedStates author r rs₁ ∨
      "COMMENTED" ∈ submittedStates author r rs₁) :
    lookupA (resolveAll author (some rs₁)) r =
      lookupA (resolveAll author (some rs₂)) r := by
  have hS : List.Perm (submittedStates author r rs₁) (submittedStates author r rs₂) := by
    unfold submittedStates
    exact hperm.filterMap _
  have h1 := resolve_bridge author r rs₁ []
  have h2 := resolve_bridge author r rs₂ []
  rw [show resolveAll author (some rs₁) = rs₁.foldl (resolveStep author) [] from rfl, h1,
    show resolveAll author (some rs₂) = rs₂.foldl (resolveStep author) [] from rfl, h2,
    show lookupA ([] : List (String × String)) r = none from rfl]
  by_cases hcr : "CHANGES_REQUESTED" ∈ submittedStates author r rs₁
  · rw [resolveFold_CR _ none (Or.inr hcr),
      resolveFold_CR _ none (Or.inr (hS.mem_iff.mp hcr))]
  · by_cases hap : "APPROVED" ∈ submittedStates author r rs₁
    · rw [resolveFold_AP _ none hcr (by simp) (Or.inr hap),
        resolveFold_AP _ none (fun hx => hcr (hS.mem_iff.mpr hx)) (by simp)
          (Or.inr (hS.mem_iff.mp hap))]
    · have hco : "COMMENTED" ∈ submittedStates author r rs₁ := by tauto
      rw [resolveFold_CO _ none hcr hap (by simp) (by simp) (Or.inr hco),
        resolveFold_CO _ none (fun hx => hcr (hS.mem_iff.mpr hx))
          (fun hx => hap (hS.mem_iff.mpr hx)) (by simp) (by simp)
          (Or.inr (hS.mem_iff.mp hco))]

/-- Witness for the amended C5: swapping [COMMENTED, APPROVED] leaves
alice's resolved state unchanged. -/
theorem c5_perm_amended_witness :
    lookupA (resolveAll none (some [rvCommented, rvApproved])) "alice" =
      lookupA (resolveAll none (some [rvApproved, rvCommented])) "alice" :=
  c5_perm_amended none [rvCommented, rvApproved] [rvApproved, rvCommented] "alice"
    (List.Perm.swap rvApproved rvCommented []) (by decide)

/-- Claim C6: a PR record with no author is processed as authored by
the sentinel "Unknown", and absent requested-reviewer or review
collections degrade to empty lists, so aggregation goes through. -/
theorem c6_missing_fields_degrade : ∀ pr : PullRequest,
    (pr.authorLogin = none → prAuthorOf pr = "Unknown") ∧
    (pr.reviewRequests = none → requestedReviewers pr.reviewRequests = []) ∧
    (pr.reviews = none → resolvedOf pr = []) ∧
    (∀ (now : Int) (r : String), pr.reviewRequests = none → pr.reviews = none →
      processAll now [pr] r = emptyAgg) := by
  intro pr
  refine ⟨fun ha => ?_, fun hreq => ?_, fun hrev => ?_, fun now r hreq hrev => ?_⟩
  · unfold prAuthorOf
    rw [ha]
  · rw [hreq]
    rfl
  · unfold resolvedOf
    rw [hrev]
    rfl
  · unfold processAll
    rw [List.foldl_cons, List.foldl_nil, processPR_apply]
    rw [if_neg (fun hmem => ?_)]
    rcases (allReviewers_mem _ _ r).mp hmem with h | h
    · rw [hreq] at h
      exact List.not_mem_nil r h
    · unfold resolvedOf at h
      rw [hrev] at h
      exact List.not_mem_nil r h

/-- Witness for C6 at a PR record missing author, requests and
reviews. -/
theorem c6_missing_fields_degrade_witness :
    prAuthorOf prBare = "Unknown" ∧
    requestedReviewers prBare.reviewRequests = [] ∧
    resolvedOf prBare = [] ∧
    processAll 5 [prBare] "anyone" = emptyAgg :=
  ⟨(c6_missing_fields_degrade prBare).1 rfl,
    (c6_missing_fields_degrade prBare).2.1 rfl,
    (c6_missing_fields_degrade prBare).2.2.1 rfl,
    (c6_missing_fields_degrade prBare).2.2.2 5 "anyone" rfl rfl⟩

/-- Claim C7: the age display-severity tier is severe above 6 days,
high above 4 up to 6, medium above 2 up to 4, and normal otherwise
(boundary ages fall into the lower tier); in the source the tiers are
the colors red, orange, yellow and the default. -/
theorem c7_age_severity_tiers : ∀ d : Int,
    (6 < d → ageSeverityTier d = "severe" ∧ colorOfDaysOpen d = "red") ∧
    (4 < d → d ≤ 6 → ageSeverityTier d = "high" ∧ colorOfDaysOpen d = "orange") ∧
    (2 < d → d ≤ 4 → ageSeverityTier d = "medium" ∧ colorOfDaysOpen d = "yellow") ∧
    (d ≤ 2 → ageSeverityTier d = "normal" ∧ colorOfDaysOpen d = "#d4d4d4") := by
  intro d
  refine ⟨fun h6 => ?_, fun h4 h6 => ?_, fun h2 h4 => ?_, fun h2 => ?_⟩
  · have hc : colorOfDaysOpen d = "red" := by
      unfold colorOfDaysOpen
      rw [if_pos h6]
    exact ⟨by unfold ageSeverityTier; rw [hc]; rfl, hc⟩
  · have hc : colorOfDaysOpen d = "orange" := by
      unfold colorOfDaysOpen
      rw [if_neg (by omega), if_pos h4]
    exact ⟨by unfold ageSeverityTier; rw [hc]; rfl, hc⟩
  · have hc : colorOfDaysOpen d = "yellow" := by
      unfold colorOfDaysOpen
      rw [if_neg (by omega), if_neg (by omega), if_pos h2]
    exact ⟨by unfold ageSeverityTier; rw [hc]; rfl, hc⟩
  · have hc : colorOfDaysOpen d = "#d4d4d4" := by
      unfold colorOfDaysOpen
      rw [if_neg (by omega), if_neg (by omega), if_neg (by omega)]
    exact ⟨by unfold ageSeverityTier; rw [hc]; rfl, hc⟩

/-- Witness for C7 at the boundary ages 2, 3, 4, 5, 6, 7. -/
theorem c7_age_severity_tiers_witness :
    ageSeverityTier 2 = "normal" ∧ ageSeverityTier 3 = "medium" ∧
    ageSeverityTier 4 = "medium" ∧ ageSeverityTier 5 = "high" ∧
    ageSeverityTier 6 = "high" ∧ ageSeverityTier 7 = "severe" :=
  ⟨((c7_age_severity_tiers 2).2.2.2 (by decide)).1,
    ((c7_age_severity_tiers 3).2.2.1 (by decide) (by decide)).1,
    ((c7_age_severity_tiers 4).2.2.1 (by decide) (by decide)).1,
    ((c7_age_severity_tiers 5).2.1 (by decide) (by decide)).1,
    ((c7_age_severity_tiers 6).2.1 (by decide) (by decide)).1,
    ((c7_age_severity_tiers 7).1 (by decide)).1⟩

/-- Claim C8: ticket extraction returns the scanner's non-overlapping
matches deduplicated keeping first occurrences in order (no
duplicates, a subsequence of the match list, same members), the empty
list for an absent title or when the scan finds nothing, and the
spec's example titles evaluate as claimed. -/
theorem c8_ticket_extraction : ∀ s : String,
    extractJiraIds none = [] ∧
    (extractJiraIds (some s)).Nodup ∧
    (extractJiraIds (some s)).Sublist (jiraScanF s.toList.length s.toList) ∧
    (∀ t, t ∈ extractJiraIds (some s) ↔ t ∈ jiraScanF s.toList.length s.toList) ∧
    (jiraScanF s.toList.length s.toList = [] → extractJiraIds (some s) = []) ∧
    extractJiraIds (some "Fix OCMUI-42 and OCMUI-42 again, also OCMUI-7") =
      ["OCMUI-42", "OCMUI-7"] := by
  intro s
  by_cases hs : s = ""
  · subst hs
    exact ⟨rfl, List.nodup_nil, List.nil_sublist _, fun t => Iff.rfl, fun _ => rfl, by decide⟩
  · have hex : extractJiraIds (some s) = setDedup (jiraScanF s.toList.length s.toList) := by
      show (if s = "" then [] else setDedup (jiraScanF s.toList.length s.toList)) =
        setDedup (jiraScanF s.toList.length s.toList)
      rw [if_neg hs]
    refine ⟨rfl, ?_, ?_, ?_, ?_, by decide⟩
    · rw [hex]
      exact setDedup_nodup _
    · rw [hex]
      exact setDedup_sublist _
    · intro t
      rw [hex]
      exact setDedup_mem _ t
    · intro hscan
      rw [hex, hscan]
      rfl

/-- Witness for C8: a title without any ticket reference yields the
empty list. -/
theorem c8_ticket_extraction_witness :
    extractJiraIds (some "no tickets here") = [] :=
  (c8_ticket_extraction "no tickets here").2.2.2.2.1 (by decide)

/-- Claim C9 (counterexample): requested-reviewer extraction does not
deduplicate: two requests with the same login produce that login
twice. -/
theorem c9_requested_reviewers_counterexample :
    requestedReviewers (some dupRequests) = ["a", "a"] ∧
    ¬ (requestedReviewers (some dupRequests)).Nodup :=
  ⟨by decide, by decide⟩

/-- Claim C9 (amended): requested-reviewer extraction keeps exactly the
logins of requests that carry a non-empty individual login, in input
order (a subsequence of the raw login list, with matching membership);
the result has no duplicates whenever the input logins are distinct —
no deduplication of its own is performed. -/
theorem c9_requested_reviewers_amended : ∀ nodes : List ReviewRequest,
    requestedReviewers none = [] ∧
    (requestedReviewers (some nodes)).Sublist
      (nodes.filterMap (fun req => req.reviewerLogin)) ∧
    (∀ s, s ∈ requestedReviewers (some nodes) ↔
      s ≠ "" ∧ ∃ req ∈ nodes, req.reviewerLogin = some s) ∧
    ((nodes.filterMap (fun req => req.reviewerLogin)).Nodup →
      (requestedReviewers (some nodes)).Nodup) := by
  intro nodes
  have heq : requestedReviewers (some nodes) =
      (nodes.filterMap (fun req => req.reviewerLogin)).filter (fun s => decide (s ≠ "")) := by
    show List.filter (fun s => decide (s ≠ ""))
        (List.filterMap id (List.map (fun req => req.reviewerLogin) nodes)) =
      List.filter (fun s => decide (s ≠ ""))
        (List.filterMap (fun req => req.reviewerLogin) nodes)
    rw [List.filterMap_map]
    rfl
  refine ⟨rfl, ?_, ?_, ?_⟩
  · rw [heq]
    exact List.filter_sublist _
  · intro s
    rw [heq, List.mem_filter]
    constructor
    · rintro ⟨hmem, hpred⟩
      refine ⟨by simpa using hpred, ?_⟩
      rcases List.mem_filterMap.mp hmem with ⟨req, hreq, hf⟩
      exact ⟨req, hreq, hf⟩
    · rintro ⟨hne, req, hreq, hf⟩
      exact ⟨List.mem_filterMap.mpr ⟨req, hreq, hf⟩, by simpa using hne⟩
  · intro hnd
    rw [heq]
    exact hnd.filter _

/-- Witness for the amended C9: a mixed request list (one entry without
a login) yields the logins in order with no duplicates. -/
theorem c9_requested_reviewers_amended_witness :
    requestedReviewers (some mixedRequests) = ["a", "b"] ∧
    (requestedReviewers (some mixedRequests)).Nodup :=
  ⟨by decide, (c9_requested_reviewers_amended mixedRequests).2.2.2 (by decide)⟩

/-- Claim C10 (counterexample): a reviewer whose resolved state is the
empty string — a string other than COMMENTED, CHANGES_REQUESTED and
PENDING — is nevertheless marked pending when also requested, because
the source's truthiness check treats the empty string as unresolved. -/
theorem c10_nonpending_states_counterexample :
    resolvedOf prEmptyStateReqQ = [("q", "")] ∧
    ¬ ("" = "COMMENTED" ∨ "" = "CHANGES_REQUESTED" ∨ "" = "PENDING") ∧
    isPendingPR prEmptyStateReqQ "q" = true ∧
    (processAll 0 [prEmptyStateReqQ] "q").pending = 1 :=
  ⟨by decide, by decide, by decide, by decide⟩

/-- Claim C10 (amended): a reviewer whose resolved state is any
NON-EMPTY string other than COMMENTED, CHANGES_REQUESTED and PENDING —
including DISMISSED, APPROVED and unrecognized states — is marked not
pending, and the per-PR step leaves that reviewer's pending count
unchanged, even when the reviewer is also requested. -/
theorem c10_nonpending_states_amended (requested : List String)
    (m : List (String × String)) (r s : String) (hl : lookupA m r = some s)
    (hse : s ≠ "") (h1 : s ≠ "COMMENTED") (h2 : s ≠ "CHANGES_REQUESTED")
    (h3 : s ≠ "PENDING") :
    isPendingOf requested m r = false ∧
    ∀ (pr : PullRequest) (pa : String) (d : Int) (st : String) (ap : Nat)
      (agg : ReviewerAgg),
      (stepReviewer requested m pr pa d st ap agg r).pending = agg.pending := by
  have hp : isPendingOf requested m r = false := by
    unfold isPendingOf
    rw [hl]
    show (if s = "" then decide (r ∈ requested)
      else decide (s = "COMMENTED" ∨ s = "CHANGES_REQUESTED" ∨ s = "PENDING")) = false
    rw [if_neg hse]
    exact decide_eq_false (by rintro (h | h | h) <;> [exact h1 h; exact h2 h; exact h3 h])
  refine ⟨hp, fun pr pa d st ap agg => ?_⟩
  rw [step_pending, hp]
  rfl

/-- Witness for the amended C10: a requested reviewer with resolved
state APPROVED is not pending and the step does not increment. -/
theorem c10_nonpending_states_amended_witness :
    isPendingOf ["z"] [("z", "APPROVED")] "z" = false ∧
    (stepReviewer ["z"] [("z", "APPROVED")] prBare "x" 0 "st" 0 emptyAgg "z").pending =
      emptyAgg.pending :=
  ⟨(c10_nonpending_states_amended ["z"] [("z", "APPROVED")] "z" "APPROVED" (by decide)
      (by decide) (by decide) (by decide) (by decide)).1,
    (c10_nonpending_states_amended ["z"] [("z", "APPROVED")] "z" "APPROVED" (by decide)
      (by decide) (by decide) (by decide) (by decide)).2 prBare "x" 0 "st" 0 emptyAgg⟩
